import Mathlib

/-!
# Verification of the GM8 executable asset extractor

Shallow embedding of the two source files of the repository:

* `src/game/parser.rs` — the executable container reader (`Game::from_exe`),
  its decryption engine (swap/reverse byte tables, two back-to-front passes),
  and the chunked record decoders `GMSound::from_raw` and `GMSprite::from_raw`.
* `src/asset/sound.rs` — the companion, non-encrypted sound record format
  (`Sound::serialize` / `Sound::deserialize`).

Machine integers are modelled as `Nat` with explicit `% 2^w` where wrapping
matters (u8 arithmetic `% 256`, u32 arithmetic `% 4294967296`, usize
arithmetic `% 18446744073709551616`).  Byte buffers are `List Nat` whose
elements are intended below 256; Rust `String`s are modelled as their UTF-8
byte sequences (`List Nat`), on which `String::from_utf8_lossy` acts as the
identity.  `f64` fields are carried as their 64-bit little-endian bit
patterns (`Nat < 2^64`); no floating-point arithmetic occurs in the source.
Rust panics (failed `assert_eq!`, index out of bounds) are modelled as the
distinguished error value `ErrorKind.panicErr`; u32/usize overflow follows
release-mode (wrapping) semantics.
-/

namespace GM8

set_option maxRecDepth 100000

/-- Little-endian value of a 4-byte list (as produced by `byteorder`'s
`read_u32::<LE>`). -/
def leNat4 (bs : List Nat) : Nat :=
  bs.getD 0 0 % 256 + bs.getD 1 0 % 256 * 256 + bs.getD 2 0 % 256 * 65536 +
    bs.getD 3 0 % 256 * 16777216

/-- Little-endian value of an 8-byte list (the bit pattern read by
`read_f64::<LE>`). -/
def leNat8 (bs : List Nat) : Nat :=
  leNat4 (bs.take 4) + leNat4 (bs.drop 4) * 4294967296

/-- The error kinds of `src/game/parser.rs` (`enum ErrorKind`).  `ioErr`
stands for `ErrorKind::IO(e)` (byteorder `UnexpectedEof`, inflate failures);
`readError` is the `From<NoneError>` conversion; `panicErr` models a Rust
panic (failed `assert_eq!` or index out of bounds), which in the source
aborts rather than returns — no claim conflates it with a returned error. -/
inductive ErrorKind where
  | ioErr : ErrorKind
  | invalidExeHeader : ErrorKind
  | invalidMagic : ErrorKind
  | readError : ErrorKind
  | spriteParseError : List Nat → String → ErrorKind
  | panicErr : ErrorKind
deriving DecidableEq

/-- Embeds `std::io::Cursor<Vec<u8>>`: the underlying buffer plus an absolute read
position.  The position may lie beyond the buffer end (Rust `Seek` allows
it); reads then fail. -/
structure Reader where
  buf : List Nat
  pos : Nat
deriving DecidableEq

/-- Bytes remaining after the cursor (`Cursor::read` draws from
`buf[min(pos, len)..]`). -/
def Reader.remaining (r : Reader) : Nat :=
  r.buf.length - r.pos

/-- Models `byteorder`'s exact read of `k` bytes (`read_exact` semantics): fails
with an IO error (`UnexpectedEof`) when fewer than `k` bytes remain. -/
def readExact (k : Nat) (r : Reader) : Except ErrorKind (List Nat × Reader) :=
  if r.pos + k ≤ r.buf.length then
    .ok ((r.buf.drop r.pos).take k, ⟨r.buf, r.pos + k⟩)
  else
    .error .ioErr

/-- Embeds `exe.read_u32::<LE>()` — 4-byte little-endian read. -/
def readU32 (r : Reader) : Except ErrorKind (Nat × Reader) :=
  match readExact 4 r with
  | .error e => .error e
  | .ok (bs, r') => .ok (leNat4 bs, r')

/-- Embeds `exe.read_f64::<LE>()` — 8-byte read, value carried as the bit pattern. -/
def readF64 (r : Reader) : Except ErrorKind (Nat × Reader) :=
  match readExact 8 r with
  | .error e => .error e
  | .ok (bs, r') => .ok (leNat8 bs, r')

/-- Embeds `ReadString::read_string` from `src/game/parser.rs`: reads a 4-byte
length `n`, allocates `vec![0u8; n]` and calls `Read::read` (NOT
`read_exact`), ignoring the returned count.  A `Cursor` read copies only
`min(n, remaining)` bytes, so on short input the result is the remaining
bytes zero-padded to length `n`, with no error. -/
def readString (r : Reader) : Except ErrorKind (List Nat × Reader) :=
  match readU32 r with
  | .error e => .error e
  | .ok (len, r1) =>
    let n := min len r1.remaining
    .ok ((r1.buf.drop r1.pos).take n ++ List.replicate (len - n) 0,
      ⟨r1.buf, r1.pos + n⟩)

/-- Embeds `exe.seek(SeekFrom::Current(d))` for a non-negative `d` (every seek in
the source is by a non-negative amount): moves the cursor, possibly past the
buffer end, never failing. -/
def seekCur (d : Nat) (r : Reader) : Reader :=
  ⟨r.buf, r.pos + d⟩

/-- Embeds `data.get_ref().get(a..b)` on a `Vec<u8>`: `some` slice when
`a ≤ b ∧ b ≤ len`, else `none`. -/
def sliceGet (buf : List Nat) (a b : Nat) : Option (List Nat) :=
  if a ≤ b ∧ b ≤ buf.length then some ((buf.drop a).take (b - a)) else none

/-! ## Decryption engine tables (`Game::from_exe`, the swap-table block)

```rust
for i in 0..256 {
    reverse_table[swap_table[i] as usize] = i as u8;
}
``` -/

/-- Builds `reverse_table` from `swap_table` exactly as the source loop
does: starting from `[0u8; 256]`, set `reverse_table[swap_table[i]] = i as u8`
for `i = 0, 1, …, 255` in order. -/
def buildReverseTable (swapT : List Nat) : List Nat :=
  (List.range 256).foldl (fun rev i => rev.set (swapT.getD i 0) (i % 256))
    (List.replicate 256 0)

theorem foldl_set_length (f g : Nat → Nat) (l : List Nat) :
    ∀ init : List Nat,
      (l.foldl (fun rev i => rev.set (f i) (g i)) init).length = init.length := by
  induction l with
  | nil => intro init; rfl
  | cons a t ih => intro init; simpa using ih (init.set (f a) (g a))

theorem buildReverseTable_length (swapT : List Nat) :
    (buildReverseTable swapT).length = 256 := by
  have h := foldl_set_length (fun i => swapT.getD i 0) (fun i => i % 256)
    (List.range 256) (List.replicate 256 0)
  unfold buildReverseTable
  rw [h, List.length_replicate]

/-- Frame lemma for the table-building fold: indices never written keep
their initial value. -/
theorem foldl_set_getD_of_not_written (f g : Nat → Nat) (k d : Nat)
    (l : List Nat) :
    ∀ init : List Nat, (∀ i ∈ l, f i ≠ k) →
      (l.foldl (fun rev i => rev.set (f i) (g i)) init).getD k d =
        init.getD k d := by
  induction l with
  | nil => intro init _; rfl
  | cons a t ih =>
    intro init h
    have ha : f a ≠ k := h a (List.mem_cons_self a t)
    have ht : ∀ i ∈ t, f i ≠ k := fun i hi => h i (List.mem_cons_of_mem a hi)
    calc (List.foldl (fun rev i => rev.set (f i) (g i)) init (a :: t)).getD k d
        = (t.foldl (fun rev i => rev.set (f i) (g i))
            (init.set (f a) (g a))).getD k d := rfl
      _ = (init.set (f a) (g a)).getD k d := ih _ ht
      _ = init.getD k d := by
          simp [List.getD_eq_getElem?_getD, List.getElem?_set_ne ha]

/-- The fold writes `g x` at position `f x`, and the write survives when no
later element writes to the same position. -/
theorem foldl_set_getD_written (f g : Nat → Nat) (d : Nat) (x : Nat)
    (l₂ : List Nat) (init : List Nat)
    (hlt : f x < init.length) (hlater : ∀ i ∈ l₂, f i ≠ f x) :
    ((x :: l₂).foldl (fun rev i => rev.set (f i) (g i)) init).getD (f x) d =
      g x := by
  have h1 : ((x :: l₂).foldl (fun rev i => rev.set (f i) (g i)) init) =
      l₂.foldl (fun rev i => rev.set (f i) (g i)) (init.set (f x) (g x)) := rfl
  rw [h1, foldl_set_getD_of_not_written f g (f x) d l₂ _ hlater]
  have : (init.set (f x) (g x))[f x]? = some (g x) :=
    List.getElem?_set_eq_of_lt (g x) hlt
  simp [List.getD_eq_getElem?_getD, this]

/-- First half of the inverse property: the entry the loop writes for `x`
survives, because injectivity keeps later iterations away from it. -/
theorem buildReverseTable_getD_swap (swapT : List Nat)
    (hval : ∀ i, i < 256 → swapT.getD i 0 < 256)
    (hinj : ∀ i j, i < 256 → j < 256 → swapT.getD i 0 = swapT.getD j 0 → i = j)
    (x : Nat) (hx : x < 256) :
    (buildReverseTable swapT).getD (swapT.getD x 0) 0 = x := by
  have hsplit : List.range 256 =
      List.range x ++ (x :: (List.range (255 - x)).map (fun j => (x + 1) + j)) := by
    have h1 : List.range 256 =
        List.range (x + 1) ++ (List.range (256 - (x + 1))).map (fun j => (x + 1) + j) := by
      have := List.range_add (x + 1) (256 - (x + 1))
      rw [← this]
      congr 1
      omega
    rw [h1, List.range_succ]
    have h2 : 256 - (x + 1) = 255 - x := by omega
    rw [h2, List.append_assoc, List.singleton_append]
  unfold buildReverseTable
  rw [hsplit, List.foldl_append]
  set init' := (List.range x).foldl
      (fun rev i => rev.set (swapT.getD i 0) (i % 256))
      (List.replicate 256 0) with hinit
  have hlen' : init'.length = 256 := by
    rw [hinit, foldl_set_length, List.length_replicate]
  have hres := foldl_set_getD_written (fun i => swapT.getD i 0) (fun i => i % 256)
    0 x ((List.range (255 - x)).map (fun j => (x + 1) + j)) init'
    (by rw [hlen']; exact hval x hx)
    (by
      intro i hi
      rcases List.mem_map.mp hi with ⟨j, hj, rfl⟩
      have hj' : j < 255 - x := List.mem_range.mp hj
      intro heq
      have := hinj (x + 1 + j) x (by omega) hx heq
      omega)
  simpa [Nat.mod_eq_of_lt hx] using hres

/-- C3: for every SwapTable that is a bijection on byte values 0..255 (an
injective self-map of `0..255`, hence bijective), the ReverseTable built by
the decryption engine satisfies `ReverseTable[SwapTable[x]] = x` and
`SwapTable[ReverseTable[x]] = x` for all byte values `x`. -/
theorem c3_reverse_table_inverse (swapT : List Nat)
    (hlen : swapT.length = 256)
    (hval : ∀ i, i < 256 → swapT.getD i 0 < 256)
    (hinj : ∀ i j, i < 256 → j < 256 → swapT.getD i 0 = swapT.getD j 0 → i = j) :
    ∀ x, x < 256 →
      (buildReverseTable swapT).getD (swapT.getD x 0) 0 = x ∧
      swapT.getD ((buildReverseTable swapT).getD x 0) 0 = x := by
  intro x hx
  refine ⟨buildReverseTable_getD_swap swapT hval hinj x hx, ?_⟩
  -- surjectivity of the swap table, from injectivity on a finite type
  let f : Fin 256 → Fin 256 := fun i => ⟨swapT.getD i.1 0, hval i.1 i.2⟩
  have hfinj : Function.Injective f := by
    intro a b hab
    have : swapT.getD a.1 0 = swapT.getD b.1 0 := congrArg Fin.val hab
    exact Fin.ext (hinj a.1 b.1 a.2 b.2 this)
  have hfsurj : Function.Surjective f :=
    (Finite.injective_iff_surjective).mp hfinj
  obtain ⟨y, hy⟩ := hfsurj ⟨x, hx⟩
  have hyx : swapT.getD y.1 0 = x := congrArg Fin.val hy
  have hrev : (buildReverseTable swapT).getD x 0 = y.1 := by
    rw [← hyx]
    exact buildReverseTable_getD_swap swapT hval hinj y.1 y.2
  rw [hrev, hyx]

/-- Register of getD-values of `List.range 256`, used to discharge table
hypotheses for the concrete identity table in witnesses. -/
theorem range256_getD (i : Nat) (hi : i < 256) :
    (List.range 256).getD i 0 = i := by
  have hl : i < (List.range 256).length := by simpa using hi
  rw [List.getD_eq_getElem _ _ hl, List.getElem_range]

/-! ## Decryption passes (`Game::from_exe`, the decryption block)

```rust
// decryption: first pass
for i in (pos..=pos + len).rev() {
    data[i - 1] = reverse_table[data[i - 1] as usize]
        .wrapping_sub(data[i - 2].wrapping_add((i.wrapping_sub(pos + 1)) as u8));
}
// decryption: second pass
for i in (pos..pos + len - 1).rev() {
    b = i as u32 - swap_table[(i - pos) & 0xFF] as u32;
    if b < pos as u32 { b = pos as u32; }
    a = data[i]; data[i] = data[b as usize]; data[b as usize] = a;
}
```

u8 arithmetic is `% 256`, the usize `wrapping_sub` is `% 2^64`, and the u32
subtraction in pass 2 follows release-mode wrapping (`% 2^32`).  Writes use
`List.set` (out-of-range writes, which would panic in Rust, are no-ops here;
the theorems' bounds hypotheses keep every access in range). -/

/-- One iteration of decryption pass 1, at absolute index `i`. -/
def pass1Step (revT : List Nat) (pos i : Nat) (data : List Nat) : List Nat :=
  let addend := (i % 18446744073709551616 + 18446744073709551616
      - (pos + 1) % 18446744073709551616) % 18446744073709551616 % 256
  data.set (i - 1)
    ((revT.getD (data.getD (i - 1) 0) 0 % 256 + 256
        - (data.getD (i - 2) 0 % 256 + addend) % 256) % 256)

/-- Pass 1 loop: `k` iterations, index descending from `pos + k - 1` to
`pos` (the source iterates `(pos..=pos+len).rev()`, i.e. `k = len + 1`). -/
def pass1Loop (revT : List Nat) (pos : Nat) : Nat → List Nat → List Nat
  | 0, data => data
  | k + 1, data => pass1Loop revT pos k (pass1Step revT pos (pos + k) data)

/-- Decryption pass 1 over region `[pos, pos+len)`: `len + 1` iterations,
`i` from `pos + len` down to `pos` inclusive. -/
def pass1Run (revT : List Nat) (pos len : Nat) (data : List Nat) : List Nat :=
  pass1Loop revT pos (len + 1) data

/-- One iteration of decryption pass 2, at absolute index `i` (release-mode
u32 wrapping for the subtraction; the `% 256` on the table entry is the
`u8 → u32` cast of a byte-array element). -/
def pass2Step (swapT : List Nat) (pos i : Nat) (data : List Nat) : List Nat :=
  let s := swapT.getD ((i - pos) % 256) 0 % 256
  let b0 := (i % 4294967296 + 4294967296 - s % 4294967296) % 4294967296
  let b := if b0 < pos % 4294967296 then pos % 4294967296 else b0
  (data.set i (data.getD b 0)).set b (data.getD i 0)

/-- Pass 2 loop: `k` iterations, index descending from `pos + k - 1` to
`pos` (the source iterates `(pos..pos+len-1).rev()`, i.e. `k = len - 1`). -/
def pass2Loop (swapT : List Nat) (pos : Nat) : Nat → List Nat → List Nat
  | 0, data => data
  | k + 1, data => pass2Loop swapT pos k (pass2Step swapT pos (pos + k) data)

/-- Decryption pass 2 over region `[pos, pos+len)`: `len - 1` iterations,
`i` from `pos + len - 2` down to `pos` inclusive. -/
def pass2Run (swapT : List Nat) (pos len : Nat) (data : List Nat) : List Nat :=
  pass2Loop swapT pos (len - 1) data

/-- The decryption engine: derive the reverse table, run pass 1 then
pass 2 in place. -/
def decryptRun (swapT : List Nat) (pos len : Nat) (data : List Nat) : List Nat :=
  pass2Run swapT pos len (pass1Run (buildReverseTable swapT) pos len data)

theorem getD_set_ne (l : List Nat) (m j v : Nat) (h : m ≠ j) :
    (l.set m v).getD j 0 = l.getD j 0 := by
  simp [List.getD_eq_getElem?_getD, List.getElem?_set_ne h]

/-- Pass 1 leaves every index below `pos - 1` and at or above
`pos + k - 1` untouched (`k` = iteration count). -/
theorem pass1Loop_frame (revT : List Nat) (pos : Nat) (hpos : 1 ≤ pos) :
    ∀ (k : Nat) (data : List Nat) (j : Nat), j + 1 < pos ∨ pos + k ≤ j + 1 →
      (pass1Loop revT pos k data).getD j 0 = data.getD j 0 := by
  intro k
  induction k with
  | zero => intro data j _; rfl
  | succ k ih =>
    intro data j hj
    have hstep : pass1Loop revT pos (k + 1) data =
        pass1Loop revT pos k (pass1Step revT pos (pos + k) data) := rfl
    rw [hstep, ih _ j (by omega)]
    simp only [pass1Step]
    apply getD_set_ne
    omega

/-- A single pass-2 step leaves every index outside `[pos, i]` untouched
(`256 ≤ pos` rules out u32 underflow in the swap-partner computation, as at
every call site — the region begins megabytes into the executable). -/
theorem pass2Step_getD_ne (swapT : List Nat) (pos i j : Nat) (data : List Nat)
    (hpos : 256 ≤ pos) (hi : pos ≤ i) (hi32 : i < 4294967296)
    (hj : j < pos ∨ i < j) :
    (pass2Step swapT pos i data).getD j 0 = data.getD j 0 := by
  simp only [pass2Step]
  have hs : swapT.getD ((i - pos) % 256) 0 % 256 < 256 :=
    Nat.mod_lt _ (by omega)
  set s := swapT.getD ((i - pos) % 256) 0 % 256 with hsdef
  have hb0 : (i % 4294967296 + 4294967296 - s % 4294967296) % 4294967296 =
      i - s := by omega
  have hposm : pos % 4294967296 = pos := Nat.mod_eq_of_lt (by omega)
  rw [hb0, hposm]
  by_cases hc : i - s < pos
  · rw [if_pos hc, getD_set_ne _ _ _ _ (by omega), getD_set_ne _ _ _ _ (by omega)]
  · rw [if_neg hc, getD_set_ne _ _ _ _ (by omega), getD_set_ne _ _ _ _ (by omega)]

/-- Pass 2 touches only indices in `[pos, pos + k)` (`k` = iteration
count). -/
theorem pass2Loop_frame (swapT : List Nat) (pos : Nat) :
    ∀ (k : Nat) (data : List Nat) (j : Nat), 256 ≤ pos → pos + k ≤ 4294967296 →
      (j < pos ∨ pos + k ≤ j) →
      (pass2Loop swapT pos k data).getD j 0 = data.getD j 0 := by
  intro k
  induction k with
  | zero => intro data j _ _ _; rfl
  | succ k ih =>
    intro data j hpos h32 hj
    have hstep : pass2Loop swapT pos (k + 1) data =
        pass2Loop swapT pos k (pass2Step swapT pos (pos + k) data) := rfl
    rw [hstep, ih _ j hpos (by omega) (by omega)]
    exact pass2Step_getD_ne swapT pos (pos + k) j data hpos (by omega)
      (by omega) (by omega)

/-- C2 (counterexample): the claim says neither pass reads or writes any
byte at an index below `pos` and every byte outside `[pos, pos+len)` is
unchanged.  False: pass 1 iterates down to `i = pos` (not `pos + 2`), so it
writes `data[pos - 1]`.  With the identity swap table, `pos = 2`, `len = 1`
and buffer `[0, 1, 0]`, the byte at index `1 = pos - 1` changes from `1` to
`2` (for `i = pos` the source computes `data[pos-1] =
rev[data[pos-1]] - (data[pos-2] + 255)` with the usize-wrapped addend). -/
theorem c2_region_confinement_cex :
    (decryptRun (List.range 256) 2 1 [0, 1, 0]).getD 1 0 ≠ 1 := by decide

/-- C2 (amended): pass 1 iterates `i` from `pos+len` down to `pos`
inclusive, so besides the region it also writes `data[pos-1]` (and reads
`data[pos-2]`); pass 2 stays inside the region.  Hence after decryption
every byte at an index below `pos - 1` or at/above `pos + len` is unchanged.
The bounds hypotheses (`256 ≤ pos`, region inside the buffer, indices below
`2^32`) hold at the single call site and keep the Rust code panic-free. -/
theorem c2_decrypt_frame_amended (swapT data : List Nat) (pos len : Nat)
    (hpos : 256 ≤ pos) (hlen : pos + len ≤ data.length)
    (h32 : pos + len < 4294967296) :
    ∀ j, j + 1 < pos ∨ pos + len ≤ j →
      (decryptRun swapT pos len data).getD j 0 = data.getD j 0 := by
  intro j hj
  unfold decryptRun pass2Run pass1Run
  rw [pass2Loop_frame swapT pos (len - 1) _ j (by omega) (by omega) (by omega)]
  exact pass1Loop_frame _ pos (by omega) (len + 1) data j (by omega)

/-- Witness for the amended C2 at a concrete in-bounds instance. -/
theorem c2_decrypt_frame_amended_witness :
    (decryptRun (List.range 256) 256 1 (List.replicate 257 0)).getD 0 0 =
      (List.replicate 257 0).getD 0 0 :=
  c2_decrypt_frame_amended (List.range 256) (List.replicate 257 0) 256 1
    (by omega) (by have h := List.length_replicate 257 (0 : Nat); omega)
    (by omega) 0 (by omega)

/-- Modelled from the claim text of C4, for refinement comparison with the
source-derived `pass2Step`: swap partner `b = i - SwapTable[(i - pos) mod
256]`, replaced by `pos` whenever `b < pos`, then `data[i]` and `data[b]`
are exchanged. -/
def pass2SpecStep (swapT : List Nat) (pos i : Nat) (data : List Nat) : List Nat :=
  let b0 := i - swapT.getD ((i - pos) % 256) 0
  let b := if b0 < pos then pos else b0
  (data.set i (data.getD b 0)).set b (data.getD i 0)

/-- Modelled from the claim text of C4: the iteration of `pass2SpecStep`. -/
def pass2SpecLoop (swapT : List Nat) (pos : Nat) : Nat → List Nat → List Nat
  | 0, data => data
  | k + 1, data => pass2SpecLoop swapT pos k (pass2SpecStep swapT pos (pos + k) data)

/-- Modelled from the claim text of C4: index `i` runs from `pos + len - 2`
down to `pos` inclusive (`len - 1` iterations). -/
def pass2SpecRun (swapT : List Nat) (pos len : Nat) (data : List Nat) : List Nat :=
  pass2SpecLoop swapT pos (len - 1) data

theorem pass2Step_eq_spec (swapT : List Nat) (pos i : Nat) (data : List Nat)
    (hpos : 256 ≤ pos) (hi : pos ≤ i) (hi32 : i < 4294967296)
    (hs : swapT.getD ((i - pos) % 256) 0 < 256) :
    pass2Step swapT pos i data = pass2SpecStep swapT pos i data := by
  simp only [pass2Step, pass2SpecStep]
  have hsm : swapT.getD ((i - pos) % 256) 0 % 256 =
      swapT.getD ((i - pos) % 256) 0 := Nat.mod_eq_of_lt hs
  rw [hsm]
  have hb0 : (i % 4294967296 + 4294967296 -
      swapT.getD ((i - pos) % 256) 0 % 4294967296) % 4294967296 =
      i - swapT.getD ((i - pos) % 256) 0 := by omega
  rw [hb0]
  have hposm : pos % 4294967296 = pos := Nat.mod_eq_of_lt (by omega)
  rw [hposm]

theorem pass2Loop_eq_spec (swapT : List Nat) (pos : Nat)
    (hpos : 256 ≤ pos) (htab : ∀ x, x < 256 → swapT.getD x 0 < 256) :
    ∀ (k : Nat), pos + k ≤ 4294967296 → ∀ data,
      pass2Loop swapT pos k data = pass2SpecLoop swapT pos k data := by
  intro k
  induction k with
  | zero => intro _ data; rfl
  | succ k ih =>
    intro h32 data
    have h1 : pass2Step swapT pos (pos + k) data =
        pass2SpecStep swapT pos (pos + k) data :=
      pass2Step_eq_spec swapT pos (pos + k) data hpos (by omega) (by omega)
        (htab _ (Nat.mod_lt _ (by omega)))
    calc pass2Loop swapT pos (k + 1) data
        = pass2Loop swapT pos k (pass2Step swapT pos (pos + k) data) := rfl
      _ = pass2SpecLoop swapT pos k (pass2SpecStep swapT pos (pos + k) data) := by
          rw [h1]; exact ih (by omega) _
      _ = pass2SpecLoop swapT pos (k + 1) data := rfl

/-- C4: decryption pass 2 iterates `i` from `pos+len-2` down to `pos`
inclusive; at each step the swap partner is `b = i - SwapTable[(i - pos)
mod 256]`, replaced by `pos` whenever `b < pos`, and `data[i]`, `data[b]`
are exchanged (refinement: the source pass equals the pass built from the
claim's words); and the pass touches no byte outside `[pos, pos+len-1)`.
The hypotheses — region position at least 256, region inside the buffer,
indices below `2^32`, table entries byte-valued — hold at the single call
site. -/
theorem c4_pass2_transposition (swapT data : List Nat) (pos len : Nat)
    (hpos : 256 ≤ pos) (hlen : pos + len ≤ data.length)
    (h32 : pos + len < 4294967296)
    (htab : ∀ x, x < 256 → swapT.getD x 0 < 256) :
    pass2Run swapT pos len data = pass2SpecRun swapT pos len data ∧
    ∀ j, j < pos ∨ pos + len ≤ j + 1 →
      (pass2Run swapT pos len data).getD j 0 = data.getD j 0 := by
  constructor
  · exact pass2Loop_eq_spec swapT pos hpos htab (len - 1) (by omega) data
  · intro j hj
    exact pass2Loop_frame swapT pos (len - 1) data j hpos (by omega) (by omega)

/-- Witness for C4 at a concrete in-bounds instance. -/
theorem c4_pass2_transposition_witness :
    pass2Run (List.range 256) 256 3 (List.replicate 259 0) =
      pass2SpecRun (List.range 256) 256 3 (List.replicate 259 0) ∧
    (pass2Run (List.range 256) 256 3 (List.replicate 259 0)).getD 0 0 =
      (List.replicate 259 0).getD 0 0 :=
  ⟨(c4_pass2_transposition (List.range 256) (List.replicate 259 0) 256 3
      (by omega) (by have h := List.length_replicate 259 (0 : Nat); omega)
      (by omega) (fun x hx => by rw [range256_getD x hx]; exact hx)).1,
   (c4_pass2_transposition (List.range 256) (List.replicate 259 0) 256 3
      (by omega) (by have h := List.length_replicate 259 (0 : Nat); omega)
      (by omega) (fun x hx => by rw [range256_getD x hx]; exact hx)).2 0 (by omega)⟩

/-! ## Sound decoder (`GMSound::from_raw`, `src/game/parser.rs`) -/

/-- Mirrors `crate::assets::GMSound` (declared outside `src/`; fields exactly as
constructed in `GMSound::from_raw`).  Strings are UTF-8 byte sequences,
`volume`/`pan` carry f64 bit patterns. -/
structure GMSound where
  name : List Nat
  version : Nat
  kind : Nat
  file_type : List Nat
  file_name : List Nat
  file_data : Option (List Nat)
  volume : Nat
  pan : Nat
  preload : Bool
deriving DecidableEq

/-- Embeds `GMSound::from_raw`.  Note the source slices the optional payload with
`data.get_ref().get(pos..pos + len)` but never seeks past it — the cursor
stays at the first byte OF the payload, so the following reserved / volume /
pan / preload reads start there. -/
def soundFromRaw (r : Reader) : Except ErrorKind (Option GMSound × Reader) :=
  match readU32 r with
  | .error e => .error e
  | .ok (flag, r) =>
  if flag = 0 then .ok (none, r) else
  match readString r with
  | .error e => .error e
  | .ok (name, r) =>
  match readU32 r with
  | .error e => .error e
  | .ok (version, r) =>
  match readU32 r with
  | .error e => .error e
  | .ok (kind, r) =>
  match readString r with
  | .error e => .error e
  | .ok (fileType, r) =>
  match readString r with
  | .error e => .error e
  | .ok (fileName, r) =>
  match readU32 r with
  | .error e => .error e
  | .ok (flag2, r) =>
  match (if flag2 = 0 then .ok (none, r) else
      match readU32 r with
      | .error e => .error e
      | .ok (len, r) =>
        match sliceGet r.buf r.pos (r.pos + len) with
        | none => Except.error ErrorKind.readError
        | some payload => .ok (some payload, r) :
        Except ErrorKind (Option (List Nat) × Reader)) with
  | .error e => .error e
  | .ok (fileData, r) =>
  match readU32 r with
  | .error e => .error e
  | .ok (_, r) =>
  match readF64 r with
  | .error e => .error e
  | .ok (volume, r) =>
  match readF64 r with
  | .error e => .error e
  | .ok (pan, r) =>
  match readU32 r with
  | .error e => .error e
  | .ok (preload, r) =>
    .ok (some { name := name, version := version, kind := kind,
                file_type := fileType, file_name := fileName,
                file_data := fileData, volume := volume, pan := pan,
                preload := preload ≠ 0 }, r)

/-- Failing input for C1: a sound record with a 4-byte payload `[9,9,9,9]`,
laid out as the claim prescribes — after the payload come the reserved
field `[8,8,8,8]`, volume bytes `[0..7]`, pan bytes `[20..27]` and preload
`[1,0,0,0]`. -/
def c1buf : List Nat :=
  [1,0,0,0, 0,0,0,0, 32,3,0,0, 0,0,0,0, 0,0,0,0, 0,0,0,0, 1,0,0,0, 4,0,0,0,
   9,9,9,9, 8,8,8,8, 0,1,2,3,4,5,6,7, 20,21,22,23,24,25,26,27, 1,0,0,0]

/-- C1: the claim says the reserved field, volume, pan and preload are read
from the bytes immediately following the `L` payload bytes (cursor past the
payload before the reserved read).  The code never advances the cursor past
the payload: on `c1buf` it reads the reserved field at the payload's first
byte and decodes the volume from bytes 36..44 — the claim's reserved field
plus half its volume field — not from the volume bytes `[0..7]` at 40..48.
The final cursor (56) also sits one u32 short of the record's end. -/
theorem c1_sound_payload_cursor_eval :
    soundFromRaw ⟨c1buf, 0⟩ =
      .ok (some { name := [], version := 800, kind := 0, file_type := [],
                  file_name := [], file_data := some [9, 9, 9, 9],
                  volume := leNat8 [8, 8, 8, 8, 0, 1, 2, 3],
                  pan := leNat8 [4, 5, 6, 7, 20, 21, 22, 23],
                  preload := true }, ⟨c1buf, 56⟩) ∧
    leNat8 [8, 8, 8, 8, 0, 1, 2, 3] ≠ leNat8 [0, 1, 2, 3, 4, 5, 6, 7] := by
  exact ⟨rfl, by decide⟩

/-- C7: the claim says a pascal string whose declared length exceeds the
remaining bytes fails with the truncated-input error kind.  The code calls
`Read::read` (not `read_exact`) and ignores the count: on `[2,0,0,0,65]`
(declared length 2, one byte remaining) it succeeds, returning the single
byte zero-padded to the declared length, with the cursor at the buffer
end. -/
theorem c7_readstring_zero_pads_short_input :
    readString ⟨[2, 0, 0, 0, 65], 0⟩ =
      .ok ([65, 0], ⟨[2, 0, 0, 0, 65], 5⟩) := rfl

/-! ## Sprite decoder (`GMSprite::from_raw`, `src/game/parser.rs`) -/

/-- Mirrors `crate::types::BoundingBox` (declared outside `src/`; fields exactly as
constructed in the sprite decoder's `read_collision` closure). -/
structure BoundingBox where
  width : Nat
  height : Nat
  top : Nat
  bottom : Nat
  left : Nat
  right : Nat
deriving DecidableEq

/-- Mirrors `crate::types::CollisionMap` (declared outside `src/`; fields exactly as
constructed in `read_collision`). -/
structure CollisionMap where
  bounds : BoundingBox
  data : List Nat
  version : Nat
deriving DecidableEq

/-- Mirrors `crate::types::Rectangle` (width/height as used for the sprite size). -/
structure Rectangle where
  width : Nat
  height : Nat
deriving DecidableEq

/-- Mirrors `crate::types::Point` (origin coordinates). -/
structure Point where
  x : Nat
  y : Nat
deriving DecidableEq

/-- Mirrors `crate::assets::GMSprite` (declared outside `src/`; fields exactly as
constructed in `GMSprite::from_raw`). -/
structure GMSprite where
  name : List Nat
  size : Rectangle
  origin : Point
  frame_count : Nat
  frames : Option (List (List Nat))
  colliders : Option (List CollisionMap)
  per_frame_colliders : Bool
  version : Nat
deriving DecidableEq

/-- The mask-filling loop of `read_collision`: `mask_size` u32 reads, the
`i`-th mask byte becoming `1` when the value is nonzero, else staying `0`. -/
def maskLoop : Nat → List Nat → Reader → Except ErrorKind (List Nat × Reader)
  | 0, acc, r => .ok (acc, r)
  | n + 1, acc, r =>
    match readU32 r with
    | .error e => .error e
    | .ok (v, r) => maskLoop n (acc ++ [if v ≠ 0 then 1 else 0]) r

/-- The `read_collision` closure: version, bounds, then `width * height`
(u32 product, wrapping) mask entries. -/
def readCollision (r : Reader) : Except ErrorKind (CollisionMap × Reader) :=
  match readU32 r with
  | .error e => .error e
  | .ok (version, r) =>
  match readU32 r with
  | .error e => .error e
  | .ok (width, r) =>
  match readU32 r with
  | .error e => .error e
  | .ok (height, r) =>
  match readU32 r with
  | .error e => .error e
  | .ok (left, r) =>
  match readU32 r with
  | .error e => .error e
  | .ok (right, r) =>
  match readU32 r with
  | .error e => .error e
  | .ok (bottom, r) =>
  match readU32 r with
  | .error e => .error e
  | .ok (top, r) =>
  match maskLoop ((width * height) % 4294967296) [] r with
  | .error e => .error e
  | .ok (mask, r) =>
    .ok ({ bounds := { width := width, height := height, top := top,
                       bottom := bottom, left := left, right := right },
           data := mask, version := version }, r)

/-- Sanity check 1 of the sprite frame loop: the established dimensions are
compared only once both are nonzero; otherwise they are overwritten by the
current frame's declared dimensions with no comparison.  `none` is the
`InconsistentFrameDimensions` outcome. -/
def establishDims (w h fw fh : Nat) : Option (Nat × Nat) :=
  if w ≠ 0 ∧ h ≠ 0 then
    if w ≠ fw ∨ h ≠ fh then none else some (w, h)
  else some (fw, fh)

/-- The BGRA→RGBA conversion loop: for each of `p` pixels starting at
absolute offset `q`, exchange the bytes at `q` and `q + 2`. -/
def bgraSwapLoop : Nat → Nat → List Nat → List Nat
  | 0, _, buf => buf
  | p + 1, q, buf =>
    bgraSwapLoop p (q + 4)
      ((buf.set q (buf.getD (q + 2) 0)).set (q + 2) (buf.getD q 0))

/-- One iteration of the sprite frame loop: per-frame version (consumed),
frame width/height, dimension check, declared pixel length, length check
(u32 products, wrapping), then the in-place BGRA→RGBA conversion and the
frame slice.  The `start + 4 * pixels ≤ len` guard models the Rust index
panic of the conversion/slice on a buffer too short for the pixel data. -/
def parseFrameStep (name : List Nat) (w h : Nat) (r : Reader) :
    Except ErrorKind ((Nat × Nat) × List Nat × Reader) :=
  match readU32 r with
  | .error e => .error e
  | .ok (_, r) =>
  match readU32 r with
  | .error e => .error e
  | .ok (fw, r) =>
  match readU32 r with
  | .error e => .error e
  | .ok (fh, r) =>
  match establishDims w h fw fh with
  | none => .error (.spriteParseError name "Inconsistent width/height across frames")
  | some (w, h) =>
  match readU32 r with
  | .error e => .error e
  | .ok (pixlen, r) =>
    let pixels := (w * h) % 4294967296
    if pixlen ≠ (pixels * 4) % 4294967296 then
      .error (.spriteParseError name "Inconsistent pixel data length with dimensions")
    else
      let start := r.pos
      let r1 := seekCur (4 * pixels) r
      if start + 4 * pixels ≤ r1.buf.length then
        let buf := bgraSwapLoop pixels start r1.buf
        .ok ((w, h), (buf.drop start).take (4 * pixels), ⟨buf, r1.pos⟩)
      else .error .panicErr

/-- The sprite frame loop (`for _ in 0..frame_count`), threading the
established dimensions and accumulating frames in push order. -/
def frameLoop (name : List Nat) : Nat → Nat → Nat → List (List Nat) → Reader →
    Except ErrorKind ((Nat × Nat) × List (List Nat) × Reader)
  | 0, w, h, acc, r => .ok ((w, h), acc, r)
  | n + 1, w, h, acc, r =>
    match parseFrameStep name w h r with
    | .error e => .error e
    | .ok ((w, h), frame, r) => frameLoop name n w h (acc ++ [frame]) r

/-- The per-frame collider loop (`for _ in 0..frame_count`). -/
def colliderLoop : Nat → List CollisionMap → Reader →
    Except ErrorKind (List CollisionMap × Reader)
  | 0, acc, r => .ok (acc, r)
  | n + 1, acc, r =>
    match readCollision r with
    | .error e => .error e
    | .ok (c, r) => colliderLoop n (acc ++ [c]) r

/-- Embeds `GMSprite::from_raw`. -/
def spriteFromRaw (r : Reader) : Except ErrorKind (Option GMSprite × Reader) :=
  match readU32 r with
  | .error e => .error e
  | .ok (flag, r) =>
  if flag = 0 then .ok (none, r) else
  match readString r with
  | .error e => .error e
  | .ok (name, r) =>
  match readU32 r with
  | .error e => .error e
  | .ok (version, r) =>
  match readU32 r with
  | .error e => .error e
  | .ok (originX, r) =>
  match readU32 r with
  | .error e => .error e
  | .ok (originY, r) =>
  match readU32 r with
  | .error e => .error e
  | .ok (frameCount, r) =>
  if frameCount = 0 then
    .ok (some { name := name, size := ⟨0, 0⟩, origin := ⟨originX, originY⟩,
                frame_count := frameCount, frames := none, colliders := none,
                per_frame_colliders := false, version := version }, r)
  else
    match frameLoop name frameCount 0 0 [] r with
    | .error e => .error e
    | .ok ((w, h), frames, r) =>
    match readU32 r with
    | .error e => .error e
    | .ok (pfcFlag, r) =>
    match (if pfcFlag ≠ 0 then colliderLoop frameCount [] r else
        match readCollision r with
        | .error e => .error e
        | .ok (c, r) => .ok ([c], r) :
        Except ErrorKind (List CollisionMap × Reader)) with
    | .error e => .error e
    | .ok (colliders, r) =>
      .ok (some { name := name, size := ⟨w, h⟩, origin := ⟨originX, originY⟩,
                  frame_count := frameCount, frames := some frames,
                  colliders := some colliders,
                  per_frame_colliders := pfcFlag ≠ 0, version := version }, r)

/-- Lemma: `readU32` can only fail with the IO (unexpected-EOF) error kind. -/
theorem readU32_error_eq (r : Reader) (e : ErrorKind)
    (h : readU32 r = .error e) : e = .ioErr := by
  unfold readU32 readExact at h
  by_cases hc : r.pos + 4 ≤ r.buf.length
  · rw [if_pos hc] at h; cases h
  · rw [if_neg hc] at h
    injection h with h'
    exact h'.symm

/-- C10: when a frame's declared pixel-data length differs from
`width * height * 4` computed from the established dimensions (u32
arithmetic, wrapping), the decoder fails with `InconsistentPixelDataLength`
carrying the sprite's name — and it does so before any pixel byte is read
or converted: the reader beyond the four header fields is arbitrary and may
contain no pixel bytes at all. -/
theorem c10_pixlen_check (name : List Nat) (w h fw fh w' h' ver pixlen : Nat)
    (r r1 r2 r3 r4 : Reader)
    (h1 : readU32 r = .ok (ver, r1))
    (h2 : readU32 r1 = .ok (fw, r2))
    (h3 : readU32 r2 = .ok (fh, r3))
    (hd : establishDims w h fw fh = some (w', h'))
    (h4 : readU32 r3 = .ok (pixlen, r4))
    (hne : pixlen ≠ ((w' * h') % 4294967296 * 4) % 4294967296) :
    parseFrameStep name w h r =
      .error (.spriteParseError name
        "Inconsistent pixel data length with dimensions") := by
  simp only [parseFrameStep, h1, h2, h3, hd, h4]
  rw [if_pos hne]

/-- Witness for C10: established dimensions 1×1 (first frame), declared
pixel length 5 ≠ 4. -/
theorem c10_pixlen_check_witness :
    parseFrameStep [] 0 0 ⟨[0,0,0,0, 1,0,0,0, 1,0,0,0, 5,0,0,0], 0⟩ =
      .error (.spriteParseError []
        "Inconsistent pixel data length with dimensions") :=
  c10_pixlen_check [] 0 0 1 1 1 1 0 5 _ _ _ _ _ rfl rfl rfl rfl rfl
    (by decide)

/-- C5 (amended): the dimension check compares each frame against the
currently established width/height, which only count as established once
both are nonzero; a frame read while either is zero overwrites them with no
comparison.  Hence: when the established dimensions are both nonzero, a
frame declaring different dimensions fails with
`InconsistentFrameDimensions(name)`; and a frame whose dimensions equal the
established ones never produces that error.  (A sprite whose first frame
declares a zero dimension can change dimensions later without this error —
see the counterexample.) -/
theorem c5_dims_check_amended (name : List Nat) (w h fw fh ver : Nat)
    (r r1 r2 r3 : Reader)
    (h1 : readU32 r = .ok (ver, r1))
    (h2 : readU32 r1 = .ok (fw, r2))
    (h3 : readU32 r2 = .ok (fh, r3)) :
    (w ≠ 0 → h ≠ 0 → (fw ≠ w ∨ fh ≠ h) →
      parseFrameStep name w h r =
        .error (.spriteParseError name "Inconsistent width/height across frames")) ∧
    (fw = w → fh = h → ∀ e, parseFrameStep name w h r = .error e →
      e ≠ .spriteParseError name "Inconsistent width/height across frames") := by
  constructor
  · intro hw hh hne
    have hd : establishDims w h fw fh = none := by
      unfold establishDims
      rw [if_pos ⟨hw, hh⟩, if_pos (by omega)]
    simp only [parseFrameStep, h1, h2, h3, hd]
  · intro hfw hfh e he
    have hd : establishDims w h fw fh = some (w, h) := by
      unfold establishDims
      rcases Decidable.em (w ≠ 0 ∧ h ≠ 0) with hc | hc
      · rw [if_pos hc, if_neg (by omega)]
      · rw [if_neg hc, hfw, hfh]
    simp only [parseFrameStep, h1, h2, h3, hd] at he
    cases h4 : readU32 r3 with
    | error e' =>
      simp only [h4, Except.error.injEq] at he
      subst he
      rw [readU32_error_eq r3 e' h4]
      intro hcontra; cases hcontra
    | ok v4 =>
      obtain ⟨pixlen, r4⟩ := v4
      simp only [h4] at he
      by_cases hpix : pixlen ≠ w * h % 4294967296 * 4 % 4294967296
      · rw [if_pos hpix] at he
        injection he with he'
        subst he'
        intro hcontra
        injection hcontra with hn hs
        exact absurd hs (by decide)
      · rw [if_neg hpix] at he
        simp only [seekCur] at he
        by_cases hg : r4.pos + 4 * (w * h % 4294967296) ≤ r4.buf.length
        · rw [if_pos hg] at he; cases he
        · rw [if_neg hg] at he
          injection he with he'
          subst he'
          intro hcontra; cases hcontra

/-- Witness for the amended C5: established dimensions 1×1, frame declares
2×1 — the decoder errors with `InconsistentFrameDimensions`. -/
theorem c5_dims_check_amended_witness :
    parseFrameStep [] 1 1 ⟨[0,0,0,0, 2,0,0,0, 1,0,0,0], 0⟩ =
      .error (.spriteParseError [] "Inconsistent width/height across frames") :=
  (c5_dims_check_amended [] 1 1 2 1 0
      ⟨[0,0,0,0, 2,0,0,0, 1,0,0,0], 0⟩ ⟨[0,0,0,0, 2,0,0,0, 1,0,0,0], 4⟩
      ⟨[0,0,0,0, 2,0,0,0, 1,0,0,0], 8⟩ ⟨[0,0,0,0, 2,0,0,0, 1,0,0,0], 12⟩
      rfl rfl rfl).1
    (by decide) (by decide) (Or.inl (by decide))

/-- Counterexample input for C5: a complete sprite record whose first frame
declares dimensions 0×5 (pixel length 0) and whose second frame declares
7×9 (pixel length 252) — different dimensions — followed by a shared 0×0
collider.  Zero pixel bytes keep the BGRA conversion a no-op. -/
def c5buf : List Nat :=
  [1,0,0,0, 1,0,0,0, 97, 32,3,0,0, 0,0,0,0, 0,0,0,0, 2,0,0,0,
   0,0,0,0, 0,0,0,0, 5,0,0,0, 0,0,0,0,
   0,0,0,0, 7,0,0,0, 9,0,0,0, 252,0,0,0] ++
  List.replicate 252 0 ++ List.replicate 32 0

/-- C5 (counterexample): the claim says any subsequent frame declaring a
width or height different from the first frame's fails with
`InconsistentFrameDimensions`.  On `c5buf` — frame 1 declares 0×5, frame 2
declares 7×9 — the decoder instead succeeds, because a zero first-frame
dimension leaves the established size unset and frame 2 overwrites it
unchecked. -/
theorem c5_dims_check_cex :
    spriteFromRaw ⟨c5buf, 0⟩ =
      .ok (some { name := [97], size := ⟨7, 9⟩, origin := ⟨0, 0⟩,
                  frame_count := 2,
                  frames := some [[], List.replicate 252 0],
                  colliders := some [⟨⟨0, 0, 0, 0, 0, 0⟩, [], 0⟩],
                  per_frame_colliders := false, version := 800 },
        ⟨c5buf, 341⟩) := by rfl

/-- The frame loop accumulates exactly one frame per iteration. -/
theorem frameLoop_ok_length (name : List Nat) :
    ∀ (n w h : Nat) (acc : List (List Nat)) (r : Reader)
      (res : (Nat × Nat) × List (List Nat) × Reader),
      frameLoop name n w h acc r = .ok res →
      res.2.1.length = acc.length + n := by
  intro n
  induction n with
  | zero =>
    intro w h acc r res h0
    simp only [frameLoop] at h0
    injection h0 with h0'
    subst h0'
    simp
  | succ n ih =>
    intro w h acc r res h0
    simp only [frameLoop] at h0
    cases hp : parseFrameStep name w h r with
    | error e =>
      rw [hp] at h0
      exact Except.noConfusion h0
    | ok v =>
      obtain ⟨⟨w', h'⟩, frame, r'⟩ := v
      simp only [hp] at h0
      have hlen := ih w' h' (acc ++ [frame]) r' res h0
      rw [hlen, List.length_append]
      simp only [List.length_cons, List.length_nil]
      omega

/-- The collider loop accumulates exactly one collision map per
iteration. -/
theorem colliderLoop_ok_length :
    ∀ (n : Nat) (acc : List CollisionMap) (r : Reader)
      (res : List CollisionMap × Reader),
      colliderLoop n acc r = .ok res → res.1.length = acc.length + n := by
  intro n
  induction n with
  | zero =>
    intro acc r res h0
    simp only [colliderLoop] at h0
    injection h0 with h0'
    subst h0'
    simp
  | succ n ih =>
    intro acc r res h0
    simp only [colliderLoop] at h0
    cases hp : readCollision r with
    | error e =>
      rw [hp] at h0
      exact Except.noConfusion h0
    | ok v =>
      obtain ⟨c, r'⟩ := v
      simp only [hp] at h0
      have hlen := ih (acc ++ [c]) r' res h0
      rw [hlen, List.length_append]
      simp only [List.length_cons, List.length_nil]
      omega

/-- C9: every sprite the decoder produces with nonzero frame count has its
frames sequence of length exactly `frame_count`, and its colliders sequence
of length exactly `frame_count` when the per-frame-collider flag is set,
else exactly 1. -/
theorem c9_sprite_length_invariant (r r' : Reader) (s : GMSprite)
    (h : spriteFromRaw r = .ok (some s, r')) (hfc : s.frame_count ≠ 0) :
    (∃ fr, s.frames = some fr ∧ fr.length = s.frame_count) ∧
    (∃ cs, s.colliders = some cs ∧
      cs.length = if s.per_frame_colliders then s.frame_count else 1) := by
  unfold spriteFromRaw at h
  cases h1 : readU32 r with
  | error e => rw [h1] at h; exact Except.noConfusion h
  | ok v1 =>
  obtain ⟨flag, r1⟩ := v1
  simp only [h1] at h
  by_cases hflag : flag = 0
  · rw [if_pos hflag] at h
    simp only [Except.ok.injEq, Prod.mk.injEq] at h
    exact absurd h.1 (by simp)
  rw [if_neg hflag] at h
  cases h2 : readString r1 with
  | error e => rw [h2] at h; exact Except.noConfusion h
  | ok v2 =>
  obtain ⟨name, r2⟩ := v2
  simp only [h2] at h
  cases h3 : readU32 r2 with
  | error e => rw [h3] at h; exact Except.noConfusion h
  | ok v3 =>
  obtain ⟨version, r3⟩ := v3
  simp only [h3] at h
  cases h4 : readU32 r3 with
  | error e => rw [h4] at h; exact Except.noConfusion h
  | ok v4 =>
  obtain ⟨originX, r4⟩ := v4
  simp only [h4] at h
  cases h5 : readU32 r4 with
  | error e => rw [h5] at h; exact Except.noConfusion h
  | ok v5 =>
  obtain ⟨originY, r5⟩ := v5
  simp only [h5] at h
  cases h6 : readU32 r5 with
  | error e => rw [h6] at h; exact Except.noConfusion h
  | ok v6 =>
  obtain ⟨frameCount, r6⟩ := v6
  simp only [h6] at h
  by_cases hfc0 : frameCount = 0
  · rw [if_pos hfc0] at h
    simp only [Except.ok.injEq, Prod.mk.injEq, Option.some.injEq] at h
    obtain ⟨hs, -⟩ := h
    subst hs
    exact absurd hfc0 hfc
  rw [if_neg hfc0] at h
  cases h7 : frameLoop name frameCount 0 0 [] r6 with
  | error e => rw [h7] at h; exact Except.noConfusion h
  | ok v7 =>
  obtain ⟨⟨w, hgt⟩, frames, r7⟩ := v7
  simp only [h7] at h
  cases h8 : readU32 r7 with
  | error e => rw [h8] at h; exact Except.noConfusion h
  | ok v8 =>
  obtain ⟨pfcFlag, r8⟩ := v8
  simp only [h8] at h
  have hframes : frames.length = frameCount := by
    have := frameLoop_ok_length name frameCount 0 0 [] r6
      ((w, hgt), frames, r7) h7
    simpa using this
  rcases Decidable.em (pfcFlag ≠ 0) with hpfc | hpfc
  · rw [if_pos hpfc] at h
    cases h9 : colliderLoop frameCount [] r8 with
    | error e => rw [h9] at h; exact Except.noConfusion h
    | ok v9 =>
    obtain ⟨cols, r9⟩ := v9
    simp only [h9] at h
    simp only [Except.ok.injEq, Prod.mk.injEq, Option.some.injEq] at h
    obtain ⟨hs, -⟩ := h
    subst hs
    have hcols : cols.length = frameCount := by
      have := colliderLoop_ok_length frameCount [] r8 (cols, r9) h9
      simpa using this
    refine ⟨⟨frames, rfl, hframes⟩, ⟨cols, rfl, ?_⟩⟩
    simp only [decide_eq_true_eq]
    rw [if_pos hpfc]
    exact hcols
  · rw [if_neg hpfc] at h
    cases h9 : readCollision r8 with
    | error e => rw [h9] at h; exact Except.noConfusion h
    | ok v9 =>
    obtain ⟨c, r9⟩ := v9
    simp only [h9] at h
    simp only [Except.ok.injEq, Prod.mk.injEq, Option.some.injEq] at h
    obtain ⟨hs, -⟩ := h
    subst hs
    refine ⟨⟨frames, rfl, hframes⟩, ⟨[c], rfl, ?_⟩⟩
    simp only [decide_eq_true_eq]
    rw [if_neg hpfc]
    simp

/-- Concrete input for the C9 witness: one 1×1 frame with swap-stable pixel
bytes `[5,6,5,7]`, shared 0×0 collider. -/
def c9buf : List Nat :=
  [1,0,0,0, 0,0,0,0, 0,0,0,0, 0,0,0,0, 0,0,0,0, 1,0,0,0,
   0,0,0,0, 1,0,0,0, 1,0,0,0, 4,0,0,0, 5,6,5,7, 0,0,0,0] ++
  List.replicate 28 0

/-- The sprite decoded from `c9buf`. -/
def c9sprite : GMSprite :=
  { name := [], size := ⟨1, 1⟩, origin := ⟨0, 0⟩, frame_count := 1,
    frames := some [[5, 6, 5, 7]],
    colliders := some [⟨⟨0, 0, 0, 0, 0, 0⟩, [], 0⟩],
    per_frame_colliders := false, version := 0 }

/-- Witness for C9 at the concrete decode of `c9buf`. -/
theorem c9_sprite_length_invariant_witness :
    (∃ fr, c9sprite.frames = some fr ∧ fr.length = c9sprite.frame_count) ∧
    (∃ cs, c9sprite.colliders = some cs ∧
      cs.length = if c9sprite.per_frame_colliders then c9sprite.frame_count
        else 1) :=
  c9_sprite_length_invariant ⟨c9buf, 0⟩ ⟨c9buf, 76⟩ c9sprite rfl (by decide)

/-- Witness for C3, at the identity swap table `List.range 256`. -/
theorem c3_reverse_table_inverse_witness :
    (buildReverseTable (List.range 256)).getD ((List.range 256).getD 7 0) 0 = 7 ∧
    (List.range 256).getD ((buildReverseTable (List.range 256)).getD 7 0) 0 = 7 :=
  c3_reverse_table_inverse (List.range 256) (by simp)
    (fun i hi => by rw [range256_getD i hi]; exact hi)
    (fun i j hi hj h => by rwa [range256_getD i hi, range256_getD j hj] at h)
    7 (by omega)

/-! ## Extraction driver (`Game::from_exe`, `src/game/parser.rs`)

The zlib inflater (`flate2::ZlibDecoder`, an external library) is passed as
an oracle `orac : List Nat → Option (List Nat)`; `none` models a failing
decode (an `io::Error`, hence the IO kind).  Printing has no structural
effect and is dropped; the verbose flag's only structural use in the source
is the DLL-name step. -/

/-- Embeds the `inflate` helper: slice `[pos, pos+len)` (a `None` slice is
the `ReadError` conversion), then decompress via the oracle. -/
def inflateAt (orac : List Nat → Option (List Nat)) (buf : List Nat)
    (pos len : Nat) : Except ErrorKind (List Nat) :=
  match sliceGet buf pos (pos + len) with
  | none => .error .readError
  | some s =>
    match orac s with
    | none => .error .ioErr
    | some out => .ok out

/-- Steps of `Game::from_exe` up to and including the settings chunk:
header check (`exe.get(0..2)? != b"MZ"`), magic check at offset 2000000,
12-byte version skip, settings length + inflate + skip. -/
def fromExePrefix (orac : List Nat → Option (List Nat)) (exe : List Nat) :
    Except ErrorKind Reader :=
  match sliceGet exe 0 2 with
  | none => .error .readError
  | some hdr =>
  if hdr ≠ [77, 90] then .error .invalidExeHeader else
  match readU32 ⟨exe, 2000000⟩ with
  | .error e => .error e
  | .ok (magic, r) =>
  if magic ≠ 1234321 then .error .invalidMagic else
  match readU32 (seekCur 12 r) with
  | .error e => .error e
  | .ok (settingsLen, r) =>
  match inflateAt orac r.buf r.pos settingsLen with
  | .error e => .error e
  | .ok _settings => .ok (seekCur settingsLen r)

/-- The embedded-DLL-name step — the single point where the verbose flag
reaches the parser: verbose reads the name string (for printing only),
non-verbose reads the 4-byte length and seeks past it. -/
def dllNameStep (verbose : Bool) (r : Reader) : Except ErrorKind Reader :=
  match verbose with
  | true =>
    match readString r with
    | .error e => .error e
    | .ok (_dllname, r) => .ok r
  | false =>
    match readU32 r with
    | .error e => .error e
    | .ok (len, r) => .ok (seekCur len r)

/-- The per-slot sound loop: chunk length, inflate, seek past, decode the
inflated chunk with `GMSound::from_raw` on its own cursor. -/
def soundChunkLoop (orac : List Nat → Option (List Nat)) :
    Nat → Reader → Except ErrorKind Reader
  | 0, r => .ok r
  | n + 1, r =>
    match readU32 r with
    | .error e => .error e
    | .ok (len, r) =>
    match inflateAt orac r.buf r.pos len with
    | .error e => .error e
    | .ok chunk =>
    match soundFromRaw ⟨chunk, 0⟩ with
    | .error e => .error e
    | .ok _ => soundChunkLoop orac n (seekCur len r)

/-- The per-slot sprite loop, same pattern with `GMSprite::from_raw`. -/
def spriteChunkLoop (orac : List Nat → Option (List Nat)) :
    Nat → Reader → Except ErrorKind Reader
  | 0, r => .ok r
  | n + 1, r =>
    match readU32 r with
    | .error e => .error e
    | .ok (len, r) =>
    match inflateAt orac r.buf r.pos len with
    | .error e => .error e
    | .ok chunk =>
    match spriteFromRaw ⟨chunk, 0⟩ with
    | .error e => .error e
    | .ok _ => spriteChunkLoop orac n (seekCur len r)

/-- Steps of `Game::from_exe` after the DLL-name step: DLL data skip, the
decryption block (garbage sizes, swap table — the failed `assert_eq!` on a
short read and the passes' index-out-of-bounds are panics — reverse table,
in-place passes), the `(n+6)*4` garbage skip (u32 arithmetic, wrapping),
the extension/trigger/constant version+count headers (counts unsupported,
nothing read), then the sound and sprite chunk loops. -/
def fromExeRest (orac : List Nat → Option (List Nat)) (r : Reader) :
    Except ErrorKind Unit :=
  match readU32 r with
  | .error e => .error e
  | .ok (dllLen, r) =>
  match readU32 (seekCur dllLen r) with
  | .error e => .error e
  | .ok (g1, r) =>
  match readU32 r with
  | .error e => .error e
  | .ok (g2, r) =>
  let r := seekCur (g1 * 4) r
  if r.remaining < 256 then .error .panicErr else
  let swapT := (r.buf.drop r.pos).take 256
  match readU32 (seekCur (g2 * 4) ⟨r.buf, r.pos + 256⟩) with
  | .error e => .error e
  | .ok (len, r) =>
  if r.pos < 2 ∨ r.buf.length < r.pos + len then .error .panicErr else
  match readU32 ⟨decryptRun swapT r.pos len r.buf, r.pos⟩ with
  | .error e => .error e
  | .ok (g, r) =>
  match readU32 (seekCur ((g + 6) * 4 % 4294967296) r) with
  | .error e => .error e
  | .ok (_extVer, r) =>
  match readU32 r with
  | .error e => .error e
  | .ok (_extCount, r) =>
  match readU32 r with
  | .error e => .error e
  | .ok (_trigVer, r) =>
  match readU32 r with
  | .error e => .error e
  | .ok (_trigCount, r) =>
  match readU32 r with
  | .error e => .error e
  | .ok (_constVer, r) =>
  match readU32 r with
  | .error e => .error e
  | .ok (_constCount, r) =>
  match readU32 r with
  | .error e => .error e
  | .ok (_sndVer, r) =>
  match readU32 r with
  | .error e => .error e
  | .ok (sndCount, r) =>
  match soundChunkLoop orac sndCount r with
  | .error e => .error e
  | .ok r =>
  match readU32 r with
  | .error e => .error e
  | .ok (_sprVer, r) =>
  match readU32 r with
  | .error e => .error e
  | .ok (sprCount, r) =>
  match spriteChunkLoop orac sprCount r with
  | .error e => .error e
  | .ok _ => .ok ()

/-- Embeds `Game::from_exe`, sequenced as prefix steps, the DLL-name step
(the only verbose-dependent point), and the rest. -/
def fromExe (orac : List Nat → Option (List Nat)) (exe : List Nat)
    (verbose : Bool) : Except ErrorKind Unit :=
  match fromExePrefix orac exe with
  | .error e => .error e
  | .ok r =>
  match dllNameStep verbose r with
  | .error e => .error e
  | .ok r => fromExeRest orac r

/-- Lemma: a successful `readU32` keeps the buffer, advances by 4, and
implies the read was in bounds. -/
theorem readU32_ok_cases (r r' : Reader) (v : Nat)
    (h : readU32 r = .ok (v, r')) :
    r'.buf = r.buf ∧ r'.pos = r.pos + 4 ∧ r.pos + 4 ≤ r.buf.length := by
  unfold readU32 readExact at h
  by_cases hc : r.pos + 4 ≤ r.buf.length
  · rw [if_pos hc] at h
    simp only [Except.ok.injEq, Prod.mk.injEq] at h
    obtain ⟨-, hr⟩ := h
    rw [← hr]
    exact ⟨rfl, rfl, hc⟩
  · rw [if_neg hc] at h
    cases h

/-- Lemma: with the cursor at or past the buffer end, the rest of the
driver fails immediately at its first read, with the IO (EOF) kind. -/
theorem fromExeRest_eof (orac : List Nat → Option (List Nat)) (r : Reader)
    (h : r.buf.length ≤ r.pos) : fromExeRest orac r = .error .ioErr := by
  have h4 : readU32 r = .error .ioErr := by
    unfold readU32 readExact
    rw [if_neg (by omega)]
  unfold fromExeRest
  rw [h4]

/-- C8: the extraction driver returns the same result (same success or same
error) for verbose and non-verbose runs on every input and every inflate
oracle.  The single structural difference — the verbose run reads the DLL
name while the non-verbose run seeks past it — either leaves both cursors
at the same position, or (when the declared name length overruns the
buffer) strands both at or past the end, where the next read fails both
runs with the same EOF error. -/
theorem c8_verbose_flag_immaterial (orac : List Nat → Option (List Nat))
    (exe : List Nat) :
    fromExe orac exe true = fromExe orac exe false := by
  unfold fromExe
  cases hp : fromExePrefix orac exe with
  | error e => rfl
  | ok r =>
  cases h1 : readU32 r with
  | error e =>
    have ht : dllNameStep true r = .error e := by
      simp only [dllNameStep, readString, h1]
    have hf : dllNameStep false r = .error e := by
      simp only [dllNameStep, h1]
    simp only [ht, hf]
  | ok v =>
  obtain ⟨len, r1⟩ := v
  obtain ⟨hbuf, hpos, hle⟩ := readU32_ok_cases r r1 len h1
  have ht : dllNameStep true r =
      .ok ⟨r1.buf, r1.pos + min len (r1.buf.length - r1.pos)⟩ := by
    simp only [dllNameStep, readString, h1, Reader.remaining]
  have hf : dllNameStep false r = .ok ⟨r1.buf, r1.pos + len⟩ := by
    simp only [dllNameStep, h1, seekCur]
  by_cases hc : len ≤ r1.buf.length - r1.pos
  · rw [min_eq_left hc] at ht
    simp only [ht, hf]
  · have hmin : min len (r1.buf.length - r1.pos) = r1.buf.length - r1.pos :=
      min_eq_right (by omega)
    rw [hmin] at ht
    simp only [ht, hf]
    rw [fromExeRest_eof orac _ (by simp only []; omega),
      fromExeRest_eof orac _ (by simp only []; omega)]

/-! ## Companion sound record format (`src/asset/sound.rs`)

The byte primitives (`crate::byteio`'s `ReadBytes` / `WriteBytes` /
`ReadString` / `WriteString`) and `crate::asset::assert_ver` are code of the
repository that is not under `src/`; they are modelled from the spec
(§4.1: little-endian fixed-width reads failing with `TruncatedInput`,
pascal strings as a 4-byte length followed by that many bytes, lossy text
decoding — the identity on the UTF-8 byte sequences modelled here).  This
deserializer only moves its cursor forward, so the cursor is modelled by
the list of remaining bytes. -/

namespace Asset

/-- Models `crate::asset::AssetDataError` (declared outside `src/`):
`truncated` is the truncated-input kind, `versionMismatch` the `assert_ver`
failure, `panicSlice` the Rust panic of the source's absolute payload slice
`reader.get_ref()[pos..pos + len]` on an out-of-range length. -/
inductive AssetDataError where
  | truncated : AssetDataError
  | versionMismatch : AssetDataError
  | panicSlice : AssetDataError
deriving DecidableEq

/-- Mirrors `enum SoundKind` of `src/asset/sound.rs`. -/
inductive SoundKind where
  | normal : SoundKind
  | backgroundMusic : SoundKind
  | threeDimensional : SoundKind
  | multimedia : SoundKind
deriving DecidableEq

/-- The numeric discriminant, `self.kind as u32`. -/
def SoundKind.code : SoundKind → Nat
  | .normal => 0
  | .backgroundMusic => 1
  | .threeDimensional => 2
  | .multimedia => 3

/-- Embeds `impl From<u32> for SoundKind` (unknown codes fall back to
`Normal`). -/
def SoundKind.fromU32 (n : Nat) : SoundKind :=
  if n = 0 then .normal
  else if n = 1 then .backgroundMusic
  else if n = 2 then .threeDimensional
  else if n = 3 then .multimedia
  else .normal

/-- Mirrors `struct SoundFX` of `src/asset/sound.rs`. -/
structure SoundFX where
  chorus : Bool
  echo : Bool
  flanger : Bool
  gargle : Bool
  reverb : Bool
deriving DecidableEq

/-- Mirrors `struct Sound` of `src/asset/sound.rs`: strings as UTF-8 byte
sequences, `volume`/`pan` as f64 bit patterns. -/
structure Sound where
  name : List Nat
  source : List Nat
  extension : List Nat
  data : Option (List Nat)
  kind : SoundKind
  volume : Nat
  pan : Nat
  preload : Bool
  fx : SoundFX
deriving DecidableEq

/-- Modelled from the spec: the writer primitive `write_u32_le` (byteio is
not under `src/`) — four little-endian bytes of the value mod `2^32`. -/
def encodeU32 (v : Nat) : List Nat :=
  [v % 256, v / 256 % 256, v / 65536 % 256, v / 16777216 % 256]

/-- Modelled from the spec: `write_f64_le` writes the value's 8-byte
little-endian bit pattern — the low u32 then the high u32. -/
def encodeU64 (v : Nat) : List Nat :=
  encodeU32 v ++ encodeU32 (v / 4294967296)

/-- Modelled from the spec: `write_pas_string` writes the 4-byte length
followed by the string's bytes. -/
def writePasString (s : List Nat) : List Nat :=
  encodeU32 s.length ++ s

/-- Modelled from the spec: the reader primitive `read_u32_le`, failing
with `TruncatedInput` when fewer than 4 bytes remain. -/
def readU32le : List Nat → Except AssetDataError (Nat × List Nat)
  | b0 :: b1 :: b2 :: b3 :: rest =>
    .ok (b0 + b1 * 256 + b2 * 65536 + b3 * 16777216, rest)
  | _ => .error .truncated

/-- Modelled from the spec: `read_f64_le` — 8 little-endian bytes, value
carried as the bit pattern. -/
def readF64le (bs : List Nat) : Except AssetDataError (Nat × List Nat) :=
  match readU32le bs with
  | .error e => .error e
  | .ok (lo, rest) =>
    match readU32le rest with
    | .error e => .error e
    | .ok (hi, rest) => .ok (lo + hi * 4294967296, rest)

/-- Modelled from the spec: `read_pas_string` reads a 4-byte length `n`
then `n` bytes (lossy text decoding is the identity here), failing with
`TruncatedInput` when fewer than `n` bytes remain. -/
def readPasString (bs : List Nat) : Except AssetDataError (List Nat × List Nat) :=
  match readU32le bs with
  | .error e => .error e
  | .ok (n, rest) =>
    if n ≤ rest.length then .ok (rest.take n, rest.drop n)
    else .error .truncated

/-- Modelled from the spec: `crate::asset::assert_ver` (not under `src/`)
accepts exactly the expected version. -/
def assertVer (v expected : Nat) : Except AssetDataError Unit :=
  if v = expected then .ok () else .error .versionMismatch

/-- The format version constant `VERSION` of `src/asset/sound.rs`. -/
def VERSION : Nat := 800

/-- Embeds `Sound::serialize` (returns the written bytes; the source's
byte-count return value is their length). -/
def serialize (s : Sound) : List Nat :=
  writePasString s.name ++ encodeU32 VERSION ++ encodeU32 s.kind.code ++
  writePasString s.extension ++ writePasString s.source ++
  (match s.data with
   | some d => encodeU32 1 ++ encodeU32 d.length ++ d
   | none => encodeU32 0) ++
  encodeU32 ((if s.fx.chorus then 1 else 0) + (if s.fx.echo then 2 else 0) +
    (if s.fx.flanger then 4 else 0) + (if s.fx.gargle then 8 else 0) +
    (if s.fx.reverb then 16 else 0)) ++
  encodeU64 s.volume ++ encodeU64 s.pan ++
  encodeU32 (if s.preload then 1 else 0)

/-- Embeds `Sound::deserialize` over the remaining-bytes view of the
forward-only cursor.  The non-strict branch mirrors `seek(Current(4))`
(dropping up to 4 bytes, no failure); the data branch mirrors the absolute
slice `reader.get_ref()[pos..pos + len]`, whose out-of-range panic is
`panicSlice`. -/
def deserialize (bytes : List Nat) (strict : Bool) :
    Except AssetDataError Sound :=
  match readPasString bytes with
  | .error e => .error e
  | .ok (name, rest) =>
  match (match strict with
    | true =>
      match readU32le rest with
      | .error e => .error e
      | .ok (v, rest) =>
        match assertVer v VERSION with
        | .error e => .error e
        | .ok _ => .ok rest
    | false => .ok (rest.drop 4) : Except AssetDataError (List Nat)) with
  | .error e => .error e
  | .ok rest =>
  match readU32le rest with
  | .error e => .error e
  | .ok (kindCode, rest) =>
  match readPasString rest with
  | .error e => .error e
  | .ok (extension, rest) =>
  match readPasString rest with
  | .error e => .error e
  | .ok (source, rest) =>
  match readU32le rest with
  | .error e => .error e
  | .ok (dflag, rest) =>
  match (if dflag ≠ 0 then
      match readU32le rest with
      | .error e => .error e
      | .ok (len, rest) =>
        if len ≤ rest.length then .ok (some (rest.take len), rest.drop len)
        else .error .panicSlice
    else .ok (none, rest) :
      Except AssetDataError (Option (List Nat) × List Nat)) with
  | .error e => .error e
  | .ok (data, rest) =>
  match readU32le rest with
  | .error e => .error e
  | .ok (effects, rest) =>
  match readF64le rest with
  | .error e => .error e
  | .ok (volume, rest) =>
  match readF64le rest with
  | .error e => .error e
  | .ok (pan, rest) =>
  match readU32le rest with
  | .error e => .error e
  | .ok (preload, _) =>
    .ok { name := name, source := source, extension := extension,
          data := data, kind := SoundKind.fromU32 kindCode,
          volume := volume, pan := pan, preload := preload ≠ 0,
          fx := { chorus := effects &&& 1 ≠ 0, echo := effects &&& 2 ≠ 0,
                  flanger := effects &&& 4 ≠ 0, gargle := effects &&& 8 ≠ 0,
                  reverb := effects &&& 16 ≠ 0 } }

theorem readU32le_encode (v : Nat) (rest : List Nat) :
    readU32le (encodeU32 v ++ rest) = .ok (v % 4294967296, rest) := by
  have harith : v % 256 + v / 256 % 256 * 256 + v / 65536 % 256 * 65536 +
      v / 16777216 % 256 * 16777216 = v % 4294967296 := by omega
  simp only [encodeU32, List.cons_append, List.nil_append, readU32le, harith]

theorem readF64le_encode (v : Nat) (rest : List Nat) :
    readF64le (encodeU64 v ++ rest) = .ok (v % 18446744073709551616, rest) := by
  have harith : v % 4294967296 + v / 4294967296 % 4294967296 * 4294967296 =
      v % 18446744073709551616 := by omega
  simp only [encodeU64, List.append_assoc, readF64le, readU32le_encode, harith]

theorem take_append_length (l₁ l₂ : List Nat) :
    (l₁ ++ l₂).take l₁.length = l₁ := by
  induction l₁ with
  | nil => rfl
  | cons a t ih => simp [ih]

theorem drop_append_length (l₁ l₂ : List Nat) :
    (l₁ ++ l₂).drop l₁.length = l₂ := by
  induction l₁ with
  | nil => rfl
  | cons a t ih => simp [ih]

theorem length_le_length_append (l₁ l₂ : List Nat) :
    l₁.length ≤ (l₁ ++ l₂).length := by
  simp

theorem readPasString_write (s : List Nat) (hlen : s.length < 4294967296)
    (rest : List Nat) :
    readPasString (writePasString s ++ rest) = .ok (s, rest) := by
  simp only [writePasString, List.append_assoc, readPasString,
    readU32le_encode, Nat.mod_eq_of_lt hlen,
    if_pos (length_le_length_append s rest), take_append_length,
    drop_append_length]

theorem kind_code_roundtrip (k : SoundKind) :
    SoundKind.fromU32 (k.code % 4294967296) = k := by
  cases k <;> rfl

/-- The non-strict version skip (`seek(Current(4))`) consumes exactly the
4-byte version field. -/
theorem drop4_encodeU32 (v : Nat) (rest : List Nat) :
    (encodeU32 v ++ rest).drop 4 = rest := rfl

/-- Variant of `readU32le_encode` for the final field, where nothing
follows the four bytes. -/
theorem readU32le_encode_nil (v : Nat) :
    readU32le (encodeU32 v) = .ok (v % 4294967296, []) := by
  have h := readU32le_encode v []
  rwa [List.append_nil] at h

/-- C6: serializing a Sound with the companion non-encrypted record format
and deserializing the produced bytes (in either strict mode) yields the
original Sound field for field.  Hypotheses: the string/data lengths fit in
a u32 and the f64 bit patterns fit in 64 bits — always true of values the
Rust types can represent. -/
theorem c6_sound_roundtrip (s : Sound) (strict : Bool)
    (hname : s.name.length < 4294967296)
    (hext : s.extension.length < 4294967296)
    (hsrc : s.source.length < 4294967296)
    (hdata : ∀ d, s.data = some d → d.length < 4294967296)
    (hvol : s.volume < 18446744073709551616)
    (hpan : s.pan < 18446744073709551616) :
    deserialize (serialize s) strict = .ok s := by
  obtain ⟨name, source, extension, data, kind, volume, pan, preload, fx⟩ := s
  obtain ⟨ch, ec, fl, ga, rv⟩ := fx
  have hname' : name.length < 4294967296 := hname
  have hext' : extension.length < 4294967296 := hext
  have hsrc' : source.length < 4294967296 := hsrc
  have hvol' : volume % 18446744073709551616 = volume := Nat.mod_eq_of_lt hvol
  have hpan' : pan % 18446744073709551616 = pan := Nat.mod_eq_of_lt hpan
  have hver : assertVer (VERSION % 4294967296) VERSION = .ok () := rfl
  cases strict <;> cases data with
  | none =>
    simp [serialize, deserialize, List.append_assoc,
      readPasString_write name hname', readPasString_write extension hext',
      readPasString_write source hsrc', readU32le_encode, readF64le_encode,
      hver, hvol', hpan', kind_code_roundtrip, drop4_encodeU32,
      readU32le_encode_nil]
    all_goals cases preload <;> cases ch <;> cases ec <;> cases fl <;>
      cases ga <;> cases rv <;> first | rfl | (simp <;> decide)
  | some d =>
    have hd : d.length < 4294967296 := hdata d rfl
    have hd' : d.length % 4294967296 = d.length := Nat.mod_eq_of_lt hd
    simp [serialize, deserialize, List.append_assoc,
      readPasString_write name hname', readPasString_write extension hext',
      readPasString_write source hsrc', readU32le_encode, readF64le_encode,
      hver, hvol', hpan', hd', kind_code_roundtrip, drop4_encodeU32,
      readU32le_encode_nil, take_append_length, drop_append_length,
      length_le_length_append]
    all_goals cases preload <;> cases ch <;> cases ec <;> cases fl <;>
      cases ga <;> cases rv <;> first | rfl | (simp <;> decide)

/-- Concrete Sound value for the C6 witness. -/
def c6sound : Sound :=
  { name := [97], source := [98], extension := [99], data := some [1, 2],
    kind := .backgroundMusic, volume := 3, pan := 5, preload := true,
    fx := ⟨true, false, true, false, true⟩ }

/-- Witness for C6 at a concrete Sound, strict mode. -/
theorem c6_sound_roundtrip_witness :
    deserialize (serialize c6sound) true = .ok c6sound :=
  c6_sound_roundtrip c6sound true (by decide) (by decide) (by decide)
    (fun d hd => by
      have h : [1, 2] = d := by injection hd
      rw [← h]; decide)
    (by decide) (by decide)

end Asset

end GM8
